import Mathlib

/-!
The benchmark harness and the Category model of inventory-ai.

A shallow embedding of the C++ sources of the repository:

* `tester-comprehensive/performance_tester_fixed_v2.cpp` (namespace `FixedV2`),
* `performance_tester_fixed_v2.cpp` at the top of the tree (namespace `RootFixedV2`),
* `tester-comprehensive/performance_tester.cpp` (namespace `PerfTester`),
* `tests/category_model.h` (namespace `CategoryModel`).

A `std::string` is the list of its bytes; every `Char` of a `Str` stands for one byte
(non-ASCII bytes of a literal are written with `\x` escapes).  A process is observed
through the list of actions it performs, in program order.  The PHP text of the scripts is
given a meaning of its own (namespace `Php`).
-/

namespace InventoryAI

/-! ## Strings -/

/-- A `std::string`: the sequence of its bytes. -/
abbrev Str := List Char

/-- The call `s.find(pat)` of `std::string`: the first position at which `pat` occurs in `s`,
`none` for `std::string::npos`. -/
def find (s pat : Str) : Option Nat :=
  match s with
  | [] => if pat.isPrefixOf [] then some 0 else none
  | c :: cs => if pat.isPrefixOf (c :: cs) then some 0 else (find cs pat).map (· + 1)

/-- The call `s.replace(pos, len, r)` of `std::string` for `pos ≤ s.size()`: the `len`
characters from `pos` on (fewer when the string ends earlier) are replaced by `r`. -/
def replace (s : Str) (pos len : Nat) (r : Str) : Str :=
  s.take pos ++ r ++ s.drop (pos + len)

/-- The call `s.c_str()` read as a C string: the bytes before the first NUL. -/
def c_str (s : Str) : Str :=
  s.takeWhile (fun c => c != Char.ofNat 0)

/-- Number of positions of `s` at which `pat` occurs. -/
def countOcc (pat : Str) : Str → Nat
  | [] => if pat.isPrefixOf [] then 1 else 0
  | c :: cs => (if pat.isPrefixOf (c :: cs) then 1 else 0) + countOcc pat cs

/-- Number of occurrences of `pat` in `pre ++ rest` that start inside `pre`. -/
def countPre (pat : Str) : Str → Str → Nat
  | [], _ => 0
  | c :: cs, rest => (if pat.isPrefixOf ((c :: cs) ++ rest) then 1 else 0) + countPre pat cs rest

/-- Two strings are compatible when one of them starts with the other. -/
def compatB (x y : Str) : Bool :=
  x.isPrefixOf y || y.isPrefixOf x

/-- Every non-empty suffix of the second string is incompatible with `a`. -/
def incompatSuffixes (a : Str) : Str → Bool
  | [] => true
  | c :: cs => !(compatB a (c :: cs)) && incompatSuffixes a cs

/-- A C or PHP loop `for (i = 0; i < n; i++) body(i)` acting on a state. -/
def forLoop {σ : Type} (n : Nat) (body : Nat → σ → σ) (s : σ) : σ :=
  (List.range n).foldl (fun acc i => body i acc) s

/-! ## Processes -/

/-- Observable actions of a process. -/
inductive Action where
  /-- Writing `std::cout << line << std::endl`. -/
  | print (line : Str)
  /-- Writing `std::cout << label << duration.count() << "ms" << std::endl`. -/
  | printDuration (label : Str) (ms : Int)
  /-- Reading `std::chrono::high_resolution_clock::now()`. -/
  | now
  | fork
  | chdir (path : Str)
  | execvp (file : Str) (argv : List Str)
  | perror (msg : Str)
  /-- Calling `_exit(code)`. -/
  | exit (code : Nat)
  | waitpid (pid : Int)
  | system (command : Str)
  deriving DecidableEq, Repr

/-- How a function call ends for the process that made it. -/
inductive Flow where
  /-- The call returned to its caller. -/
  | returned
  /-- The process image was replaced by `execvp`. -/
  | execed
  /-- The process ended in `_exit(code)`. -/
  | exited (code : Nat)
  deriving DecidableEq, Repr

/-- What the environment answers to a process: the value of its k-th `fork()`, whether the
`execvp` after it succeeds, and its k-th clock reading in milliseconds. -/
structure Env where
  forkRet : Nat → Int
  execOk : Nat → Bool
  clock : Nat → Int

/-- A process running the harness: the actions performed so far, the arguments handed to
`runPhpCode` so far, the number of `fork()` calls and clock readings made, and whether the
process is still executing harness code (`flow = returned`). -/
structure State where
  trace : List Action
  calls : List Str
  forks : Nat
  reads : Nat
  flow : Flow

/-- The state of a process at the entry of `main`. -/
def State.init : State :=
  ⟨[], [], 0, 0, Flow.returned⟩

/-- Perform one action, if the process is still executing harness code. -/
def emit (a : Action) (s : State) : State :=
  if s.flow = Flow.returned then ⟨s.trace ++ [a], s.calls, s.forks, s.reads, s.flow⟩ else s

/-- Read the clock, `std::chrono::high_resolution_clock::now()`: the state afterwards and
the value read. -/
def readClock (env : Env) (s : State) : State × Int :=
  if s.flow = Flow.returned then
    (⟨s.trace ++ [Action.now], s.calls, s.forks, s.reads + 1, s.flow⟩, env.clock s.reads)
  else (s, 0)

/-- The application root, `/var/www/html/inventory-ai`. -/
def appRoot : Str := "/var/www/html/inventory-ai".toList

/-- The relative bootstrap statement searched for by `getPhpCodeWithAbsolutePath`. -/
def relRequire : Str := "require 'vendor/autoload.php';".toList

/-- The absolute bootstrap statement inserted by `getPhpCodeWithAbsolutePath`. -/
def absRequire : Str := "require '/var/www/html/inventory-ai/vendor/autoload.php';".toList

/-! ## `performance_tester_fixed_v2.cpp` at the top of the tree -/

namespace RootFixedV2

/-- `PerformanceTester::runPhpCode` of the top-level file, for the process in which `fork()`
returned `pid`; `execOk` tells whether `execvp` succeeds. -/
def runPhpCode (code : Str) (pid : Int) (execOk : Bool) : List Action × Flow :=
  if pid = 0 then
    if execOk then
      ([Action.fork, Action.execvp "php".toList ["php".toList, "-r".toList, c_str code]],
        Flow.execed)
    else
      ([Action.fork, Action.execvp "php".toList ["php".toList, "-r".toList, c_str code],
        Action.perror "execvp failed".toList, Action.exit 1], Flow.exited 1)
  else if pid > 0 then
    ([Action.fork, Action.waitpid pid], Flow.returned)
  else
    ([Action.fork, Action.perror "fork failed".toList], Flow.returned)

end RootFixedV2

/-! ## `tester-comprehensive/performance_tester_fixed_v2.cpp` -/

namespace FixedV2

/-- `PerformanceTester::runPhpCode`, for the process in which `fork()` returned `pid`;
`execOk` tells whether `execvp` succeeds. -/
def runPhpCode (code : Str) (pid : Int) (execOk : Bool) : List Action × Flow :=
  if pid = 0 then
    if execOk then
      ([Action.fork, Action.chdir appRoot,
        Action.execvp "php".toList ["php".toList, "-r".toList, c_str code]], Flow.execed)
    else
      ([Action.fork, Action.chdir appRoot,
        Action.execvp "php".toList ["php".toList, "-r".toList, c_str code],
        Action.perror "execvp failed".toList, Action.exit 1], Flow.exited 1)
  else if pid > 0 then
    ([Action.fork, Action.waitpid pid], Flow.returned)
  else
    ([Action.fork, Action.perror "fork failed".toList], Flow.returned)

/-- `PerformanceTester::getPhpCodeWithAbsolutePath`. -/
def getPhpCodeWithAbsolutePath (phpCode : Str) : Str :=
  match find phpCode relRequire with
  | some pos => replace phpCode pos 29 absRequire
  | none => phpCode

/-- The rewriting as the specification words it: the 30-character relative statement at its
first occurrence is replaced by the absolute statement, everything else is kept. -/
def referenceRewrite (s : Str) : Str :=
  match find s relRequire with
  | some p => s.take p ++ absRequire ++ s.drop (p + 30)
  | none => s

/-- A call `runPhpCode(code)` made by a harness process. -/
def callRunPhpCode (env : Env) (code : Str) (s : State) : State :=
  if s.flow = Flow.returned then
    let r := runPhpCode code (env.forkRet s.forks) (env.execOk s.forks)
    ⟨s.trace ++ r.1, s.calls ++ [code], s.forks + 1, s.reads, r.2⟩
  else s

/-- Script of test 1 of `runPhpPerformanceTest` (Connectivity). -/
def connectivityScript : Str :=
  ("require 'vendor/autoload.php'; " ++
   "use App\\Config\\MongoDBManager; " ++
   "MongoDBManager::initialize(); " ++
   "echo MongoDBManager::ping() ? '\xe2\x9c\x85 Connected' : '\xe2\x9d\x8c Failed'; " ++
   "echo PHP_EOL;").toList

/-- Script of test 2 of `runPhpPerformanceTest` (Single Round Trip). -/
def singleRoundTripScript : Str :=
  ("require 'vendor/autoload.php'; " ++
   "use App\\Config\\MongoDBManager; " ++
   "use App\\Model\\User; " ++
   "use App\\Repository\\UserRepository; " ++
   "MongoDBManager::initialize(); " ++
   "$repo = new UserRepository(); " ++
   "$start = microtime(true); " ++
   "$user = new User('testuser', 'test@example.com', password_hash('test123', PASSWORD_BCRYPT), 'staff'); " ++
   "$repo->saveUser($user); " ++
   "$repo->deleteUser($user); " ++
   "$time = (microtime(true) - $start) * 1000; " ++
   "echo 'Single operation: ' . round($time, 2) . 'ms' . PHP_EOL;").toList

/-- Script of `runLoadTest` (Batch Round Trip, 50 iterations). -/
def batchRoundTripScript : Str :=
  ("require 'vendor/autoload.php'; " ++
   "use App\\Config\\MongoDBManager; " ++
   "use App\\Model\\User; " ++
   "use App\\Repository\\UserRepository; " ++
   "MongoDBManager::initialize(); " ++
   "$repo = new UserRepository(); " ++
   "$start = microtime(true); " ++
   "for ($i = 0; $i < 50; $i++) \x7b " ++
   "    $user = new User('loaduser'.$i, 'load'.$i.'@example.com', password_hash('test123', PASSWORD_BCRYPT), 'staff'); " ++
   "    $repo->saveUser($user); " ++
   "    $repo->deleteUser($user); " ++
   "\x7d " ++
   "$time = (microtime(true) - $start) * 1000; " ++
   "echo 'Completed 50 iterations: ' . round($time, 2) . 'ms' . PHP_EOL;" ++
   "echo 'Average: ' . round($time / 50, 2) . 'ms per operation' . PHP_EOL;").toList

/-- Script of `runInventoryTest` (Raw Store Loop, 20 iterations). -/
def rawStoreLoopScript : Str :=
  ("require 'vendor/autoload.php'; " ++
   "use App\\Config\\MongoDBManager; " ++
   "MongoDBManager::initialize(); " ++
   "$collection = MongoDBManager::getCollection('test_performance'); " ++
   "$start = microtime(true); " ++
   "for ($i = 0; $i < 20; $i++) \x7b " ++
   "    $result = $collection->insertOne(['test' => 'data', 'index' => $i, 'timestamp' => new MongoDB\\BSON\\UTCDateTime()]); " ++
   "    $collection->deleteOne(['_id' => $result->getInsertedId()]); " ++
   "\x7d " ++
   "$time = (microtime(true) - $start) * 1000; " ++
   "echo 'Inventory operations: ' . round($time, 2) . 'ms' . PHP_EOL;").toList

/-- `PerformanceTester::runLoadTest`. -/
def runLoadTest (env : Env) (s : State) : State :=
  let s := emit (Action.print "Running Load Test...".toList) s
  let start := readClock env s
  let s := callRunPhpCode env (getPhpCodeWithAbsolutePath batchRoundTripScript) start.1
  let stop := readClock env s
  emit (Action.printDuration "Load test duration: ".toList (stop.2 - start.2)) stop.1

end FixedV2

/-! ## The PHP of the scripts -/

namespace Php

/-! The scripts are PHP text that the harness hands to `php -r`.  This section gives their
meaning for the fragment of PHP in which they are written: a script is a list of
statements whose text (`render`) is compared with the text in the C++ source, and a run
(`run`) records every call that leaves the script (into the autoloader or into a class of
the application), each of which returns or throws as the environment decides. -/

/-- A PHP float of the script, kept symbolic: the arithmetic of the script applied to the
values returned by `microtime(true)`. -/
inductive FExpr where
  /-- The value returned by the k-th call `microtime(true)` of the run. -/
  | microtime (k : Nat)
  | ofInt (n : Int)
  | sub (a b : FExpr)
  | mul (a b : FExpr)
  | div (a b : FExpr)
  /-- The value of `round(a, digits)`. -/
  | round (a : FExpr) (digits : Nat)
  deriving DecidableEq, Repr

/-- A piece of a PHP string: literal text, a float converted to text, or a predefined
constant. -/
inductive Piece where
  | text (s : Str)
  | float (x : FExpr)
  | const (name : Str)
  deriving DecidableEq, Repr

/-- A PHP value of the fragment. -/
inductive Value where
  | bool (b : Bool)
  | int (n : Int)
  | float (x : FExpr)
  | str (ps : List Piece)
  /-- A predefined constant other than `true`, kept symbolic. -/
  | const (name : Str)
  /-- The object number `id`, an instance of `cls`. -/
  | obj (id : Nat) (cls : Str)
  /-- The result of a call of `fn` whose value the model does not know. -/
  | result (fn : Str)
  deriving DecidableEq, Repr

/-- A call that leaves the script: into the autoloader or into a class of the application. -/
inductive Event where
  | require (path : List Piece)
  | staticCall (cls method : Str) (args : List Value)
  | new (cls : Str) (args : List Value) (id : Nat)
  | methodCall (receiver : Value) (method : Str) (args : List Value)
  deriving DecidableEq, Repr

/-- Binary operators of the fragment, written with a blank on either side. -/
inductive BinOp where
  | sub
  | mul
  | div
  | lt
  deriving DecidableEq, Repr

mutual
/-- Expressions of the fragment of PHP in which the scripts are written. -/
inductive Expr where
  /-- A single-quoted string `'s'`. -/
  | strLit (s : Str)
  | intLit (n : Nat)
  /-- A variable `$name`. -/
  | var (name : Str)
  | const (name : Str)
  /-- Concatenation, written `a.b` when `tight` and `a . b` otherwise. -/
  | concat (tight : Bool) (a b : Expr)
  | binop (op : BinOp) (a b : Expr)
  | paren (e : Expr)
  | call (fn : Str) (args : Args)
  | new (cls : Str) (args : Args)
  | staticCall (cls method : Str) (args : Args)
  /-- A method call `$receiver->method(args)`. -/
  | methodCall (receiver method : Str) (args : Args)
  /-- The expression `$name++`. -/
  | postInc (name : Str)
/-- Argument lists. -/
inductive Args where
  | nil
  | cons (e : Expr) (rest : Args)
end

/-- Statements without a body. -/
inductive Simple where
  | require (path : Expr)
  | use (name : Str)
  | assign (name : Str) (e : Expr)
  | expr (e : Expr)
  | echo (e : Expr)
  | empty

/-- Statements; every statement of a body is followed by the white space after its `;`. -/
inductive Stmt where
  | simple (s : Simple)
  /-- The loop `for (init; cond; incr) {` white space, body `}`. -/
  | forLoop (init : Simple) (cond incr : Expr) (space : Str) (body : List (Simple × Str))

/-- A script: statements, each followed by the white space after it. -/
abbrev Program := List (Stmt × Str)

/-- The text of a binary operator. -/
def renderBinOp : BinOp → Str
  | BinOp.sub => " - ".toList
  | BinOp.mul => " * ".toList
  | BinOp.div => " / ".toList
  | BinOp.lt => " < ".toList

mutual
/-- The text of an expression. -/
def renderExpr : Expr → Str
  | Expr.strLit s => '\'' :: (s ++ ['\''])
  | Expr.intLit n => (Nat.repr n).toList
  | Expr.var x => '$' :: x
  | Expr.const c => c
  | Expr.concat tight a b =>
    renderExpr a ++ (if tight then ".".toList else " . ".toList) ++ renderExpr b
  | Expr.binop op a b => renderExpr a ++ renderBinOp op ++ renderExpr b
  | Expr.paren e => '(' :: (renderExpr e ++ [')'])
  | Expr.call f args => f ++ '(' :: (renderArgs args ++ [')'])
  | Expr.new cls args => "new ".toList ++ cls ++ '(' :: (renderArgs args ++ [')'])
  | Expr.staticCall cls m args => cls ++ "::".toList ++ m ++ '(' :: (renderArgs args ++ [')'])
  | Expr.methodCall r m args =>
    '$' :: (r ++ "->".toList ++ m ++ '(' :: (renderArgs args ++ [')']))
  | Expr.postInc x => '$' :: (x ++ "++".toList)
/-- The text of an argument list. -/
def renderArgs : Args → Str
  | Args.nil => []
  | Args.cons e Args.nil => renderExpr e
  | Args.cons e (Args.cons e2 rest) => renderExpr e ++ ", ".toList ++ renderArgs (Args.cons e2 rest)
end

/-- The text of a statement without its `;`. -/
def renderSimple : Simple → Str
  | Simple.require p => "require ".toList ++ renderExpr p
  | Simple.use n => "use ".toList ++ n
  | Simple.assign x e => '$' :: (x ++ " = ".toList ++ renderExpr e)
  | Simple.expr e => renderExpr e
  | Simple.echo e => "echo ".toList ++ renderExpr e
  | Simple.empty => []

/-- The text of a loop body. -/
def renderBody : List (Simple × Str) → Str
  | [] => []
  | (s, w) :: rest => renderSimple s ++ ';' :: (w ++ renderBody rest)

/-- The text of a statement. -/
def renderStmt : Stmt → Str
  | Stmt.simple s => renderSimple s ++ [';']
  | Stmt.forLoop init cond incr space body =>
    "for (".toList ++ renderSimple init ++ "; ".toList ++ renderExpr cond ++ "; ".toList
      ++ renderExpr incr ++ ") \x7b".toList ++ space ++ renderBody body ++ "\x7d".toList

/-- The text of a script. -/
def render : Program → Str
  | [] => []
  | (s, w) :: rest => renderStmt s ++ w ++ render rest

/-- The state of a running script. -/
structure PhpState where
  vars : List (Str × Value)
  /-- Calls that left the script so far, in order. -/
  events : List Event
  /-- What `echo` has written so far. -/
  output : List Piece
  /-- Number of calls that left the script so far. -/
  calls : Nat
  /-- Number of calls of `microtime(true)` so far. -/
  clockReads : Nat
  /-- Number of objects created so far. -/
  objects : Nat
  deriving DecidableEq, Repr

/-- How the evaluation of a part of the script ends. -/
inductive Res (α : Type) where
  | ok (a : α) (st : PhpState)
  /-- A call threw and nothing catches: the script has ended in state `st`. -/
  | fatal (st : PhpState)
  /-- The script left the fragment that the model covers. -/
  | stuck
  /-- The loop did not end within the fuel given. -/
  | outOfFuel
  deriving DecidableEq, Repr

/-- Sequencing. -/
def Res.bind {α β : Type} (r : Res α) (f : α → PhpState → Res β) : Res β :=
  match r with
  | Res.ok a st => f a st
  | Res.fatal st => Res.fatal st
  | Res.stuck => Res.stuck
  | Res.outOfFuel => Res.outOfFuel

/-- The value of a variable. -/
def lookup (x : Str) : List (Str × Value) → Option Value
  | [] => none
  | (y, v) :: rest => if x = y then some v else lookup x rest

/-- Assignment to a variable. -/
def store (x : Str) (v : Value) : List (Str × Value) → List (Str × Value)
  | [] => [(x, v)]
  | (y, w) :: rest => if x = y then (x, v) :: rest else (y, w) :: store x v rest

/-- Decimal text of an integer, as PHP converts it to a string. -/
def intText (n : Int) : Str :=
  (toString n).toList

/-- Concatenation of string pieces; adjacent literal texts are joined. -/
def appendPieces : List Piece → List Piece → List Piece
  | [], qs => qs
  | [Piece.text s], Piece.text t :: qs => Piece.text (s ++ t) :: qs
  | p :: ps, qs => p :: appendPieces ps qs

/-- Conversion to string for `.` and `echo`. -/
def toPieces : Value → Option (List Piece)
  | Value.str ps => some ps
  | Value.int n => some [Piece.text (intText n)]
  | Value.float x => some [Piece.float x]
  | Value.const c => some [Piece.const c]
  | _ => none

/-- Conversion to float for the arithmetic operators and `round`. -/
def toFloat : Value → Option FExpr
  | Value.int n => some (FExpr.ofInt n)
  | Value.float x => some x
  | _ => none

/-- Binary operators of the fragment. -/
def applyBinOp (op : BinOp) (a b : Value) : Option Value :=
  match op, a, b with
  | BinOp.lt, Value.int m, Value.int n => some (Value.bool (decide (m < n)))
  | BinOp.sub, Value.int m, Value.int n => some (Value.int (m - n))
  | BinOp.mul, Value.int m, Value.int n => some (Value.int (m * n))
  | BinOp.div, Value.int _, Value.int _ => none
  | BinOp.lt, _, _ => none
  | BinOp.sub, x, y =>
    match toFloat x, toFloat y with
    | some p, some q => some (Value.float (FExpr.sub p q))
    | _, _ => none
  | BinOp.mul, x, y =>
    match toFloat x, toFloat y with
    | some p, some q => some (Value.float (FExpr.mul p q))
    | _, _ => none
  | BinOp.div, x, y =>
    match toFloat x, toFloat y with
    | some p, some q => some (Value.float (FExpr.div p q))
    | _, _ => none

/-- A call that leaves the script: it is recorded, and it returns `v` or throws as the
environment decides (`returns k` for the k-th such call of the run). -/
def external (returns : Nat → Bool) (e : Event) (v : Value) (st : PhpState) : Res Value :=
  if returns st.calls then
    Res.ok v ⟨st.vars, st.events ++ [e], st.output, st.calls + 1, st.clockReads, st.objects⟩
  else
    Res.fatal ⟨st.vars, st.events ++ [e], st.output, st.calls + 1, st.clockReads, st.objects⟩

/-- The built-in functions that the scripts call. -/
def builtin (fn : Str) (args : List Value) (st : PhpState) : Res Value :=
  if fn = "microtime".toList then
    match args with
    | [Value.bool true] =>
      Res.ok (Value.float (FExpr.microtime st.clockReads))
        ⟨st.vars, st.events, st.output, st.calls, st.clockReads + 1, st.objects⟩
    | _ => Res.stuck
  else if fn = "password_hash".toList then
    match args with
    | [Value.str _, Value.const _] => Res.ok (Value.result fn) st
    | _ => Res.stuck
  else if fn = "round".toList then
    match args with
    | [x, Value.int (Int.ofNat d)] =>
      match toFloat x with
      | some p => Res.ok (Value.float (FExpr.round p d)) st
      | none => Res.stuck
    | _ => Res.stuck
  else Res.stuck

mutual
/-- Evaluation of an expression. -/
def evalExpr (returns : Nat → Bool) : Expr → PhpState → Res Value
  | Expr.strLit s, st => Res.ok (Value.str [Piece.text s]) st
  | Expr.intLit n, st => Res.ok (Value.int n) st
  | Expr.var x, st =>
    match lookup x st.vars with
    | some v => Res.ok v st
    | none => Res.stuck
  | Expr.const c, st =>
    if c = "true".toList then Res.ok (Value.bool true) st else Res.ok (Value.const c) st
  | Expr.concat _ a b, st =>
    (evalExpr returns a st).bind fun va st1 =>
    (evalExpr returns b st1).bind fun vb st2 =>
    match toPieces va, toPieces vb with
    | some p, some q => Res.ok (Value.str (appendPieces p q)) st2
    | _, _ => Res.stuck
  | Expr.binop op a b, st =>
    (evalExpr returns a st).bind fun va st1 =>
    (evalExpr returns b st1).bind fun vb st2 =>
    match applyBinOp op va vb with
    | some v => Res.ok v st2
    | none => Res.stuck
  | Expr.paren e, st => evalExpr returns e st
  | Expr.call f args, st =>
    (evalArgs returns args st).bind fun vs st1 => builtin f vs st1
  | Expr.new cls args, st =>
    (evalArgs returns args st).bind fun vs st1 =>
    external returns (Event.new cls vs st1.objects) (Value.obj st1.objects cls)
      ⟨st1.vars, st1.events, st1.output, st1.calls, st1.clockReads, st1.objects + 1⟩
  | Expr.staticCall cls m args, st =>
    (evalArgs returns args st).bind fun vs st1 =>
    external returns (Event.staticCall cls m vs) (Value.result m) st1
  | Expr.methodCall r m args, st =>
    match lookup r st.vars with
    | some (Value.obj id cls) =>
      (evalArgs returns args st).bind fun vs st1 =>
      external returns (Event.methodCall (Value.obj id cls) m vs) (Value.result m) st1
    | _ => Res.stuck
  | Expr.postInc x, st =>
    match lookup x st.vars with
    | some (Value.int n) =>
      Res.ok (Value.int n)
        ⟨store x (Value.int (n + 1)) st.vars, st.events, st.output, st.calls, st.clockReads,
          st.objects⟩
    | _ => Res.stuck
/-- Evaluation of an argument list, from left to right. -/
def evalArgs (returns : Nat → Bool) : Args → PhpState → Res (List Value)
  | Args.nil, st => Res.ok [] st
  | Args.cons e rest, st =>
    (evalExpr returns e st).bind fun v st1 =>
    (evalArgs returns rest st1).bind fun vs st2 => Res.ok (v :: vs) st2
end

/-- Execution of a statement without a body. -/
def execSimple (returns : Nat → Bool) : Simple → PhpState → Res Unit
  | Simple.require p, st =>
    (evalExpr returns p st).bind fun v st1 =>
    match toPieces v with
    | some ps => (external returns (Event.require ps) (Value.result "require".toList) st1).bind
        fun _ st2 => Res.ok () st2
    | none => Res.stuck
  | Simple.use _, st => Res.ok () st
  | Simple.assign x e, st =>
    (evalExpr returns e st).bind fun v st1 =>
    Res.ok () ⟨store x v st1.vars, st1.events, st1.output, st1.calls, st1.clockReads,
      st1.objects⟩
  | Simple.expr e, st => (evalExpr returns e st).bind fun _ st1 => Res.ok () st1
  | Simple.echo e, st =>
    (evalExpr returns e st).bind fun v st1 =>
    match toPieces v with
    | some ps => Res.ok () ⟨st1.vars, st1.events, appendPieces st1.output ps, st1.calls,
        st1.clockReads, st1.objects⟩
    | none => Res.stuck
  | Simple.empty, st => Res.ok () st

/-- Execution of a loop body. -/
def execBody (returns : Nat → Bool) : List (Simple × Str) → PhpState → Res Unit
  | [], st => Res.ok () st
  | (s, _) :: rest, st => (execSimple returns s st).bind fun _ st1 => execBody returns rest st1

/-- The iterations of `for (...; cond; incr) body`, at most `fuel` of them. -/
def loop (returns : Nat → Bool) (cond incr : Expr) (body : List (Simple × Str)) :
    Nat → PhpState → Res Unit
  | 0, _ => Res.outOfFuel
  | fuel + 1, st =>
    (evalExpr returns cond st).bind fun c st1 =>
    match c with
    | Value.bool true =>
      (execBody returns body st1).bind fun _ st2 =>
      (evalExpr returns incr st2).bind fun _ st3 => loop returns cond incr body fuel st3
    | Value.bool false => Res.ok () st1
    | _ => Res.stuck

/-- Execution of a statement. -/
def execStmt (returns : Nat → Bool) (fuel : Nat) : Stmt → PhpState → Res Unit
  | Stmt.simple s, st => execSimple returns s st
  | Stmt.forLoop init cond incr _ body, st =>
    (execSimple returns init st).bind fun _ st1 => loop returns cond incr body fuel st1

/-- Execution of a script. -/
def exec (returns : Nat → Bool) (fuel : Nat) : Program → PhpState → Res Unit
  | [], st => Res.ok () st
  | (s, _) :: rest, st => (execStmt returns fuel s st).bind fun _ st1 => exec returns fuel rest st1

/-- A run of a script by `php -r`. -/
def run (returns : Nat → Bool) (fuel : Nat) (p : Program) : Res Unit :=
  exec returns fuel p ⟨[], [], [], 0, 0, 0⟩

/-- The state in which a run ended, when it ended. -/
def Res.state {α : Type} : Res α → Option PhpState
  | Res.ok _ st => some st
  | Res.fatal st => some st
  | _ => none


/-- The events of the state in which a run ended. -/
def Res.events {α : Type} (r : Res α) : List Event :=
  match r.state with
  | some st => st.events
  | none => []

/-- What a run has written. -/
def Res.output {α : Type} (r : Res α) : List Piece :=
  match r.state with
  | some st => st.output
  | none => []

/-- Whether the script ran to its end. -/
def Res.finished {α : Type} : Res α → Bool
  | Res.ok _ _ => true
  | _ => false

/-- Whether an event is a call of the method `method`. -/
def Event.isMethodCall (method : Str) : Event → Bool
  | Event.methodCall _ m _ => decide (m = method)
  | _ => false

/-- The float of a piece, if it is one. -/
def Piece.toFloat? : Piece → Option FExpr
  | Piece.float x => some x
  | _ => none

/-- The function `round(x, digits)` of PHP on exact numbers: to the nearest multiple of
`10 ^ (-digits)`, halves away from zero. -/
def phpRound (x : ℚ) (digits : Nat) : ℚ :=
  if 0 ≤ x then ((⌊x * 10 ^ digits + 1 / 2⌋ : Int) : ℚ) / 10 ^ digits
  else -(((⌊-x * 10 ^ digits + 1 / 2⌋ : Int) : ℚ) / 10 ^ digits)

/-- The number a symbolic float stands for when the k-th call `microtime(true)` returns
`clock k`; numbers are exact, the rounding error of binary floating point is left out. -/
def FExpr.value (clock : Nat → ℚ) : FExpr → ℚ
  | FExpr.microtime k => clock k
  | FExpr.ofInt n => (n : ℚ)
  | FExpr.sub a b => FExpr.value clock a - FExpr.value clock b
  | FExpr.mul a b => FExpr.value clock a * FExpr.value clock b
  | FExpr.div a b => FExpr.value clock a / FExpr.value clock b
  | FExpr.round a digits => phpRound (FExpr.value clock a) digits

/-- A name: letters, digits, `_`, and `\` between the parts of a qualified name. -/
def isName (s : Str) : Bool :=
  !s.isEmpty && s.all (fun c => c.isAlphanum || c == '_' || c == '\\')

/-- The text of a single-quoted string that needs no escape. -/
def isPlainText (s : Str) : Bool :=
  s.all (fun c => c != '\'' && c != '\\')

/-- White space made of blanks. -/
def isBlank (s : Str) : Bool :=
  s.all (fun c => c == ' ')

/-- An operand that PHP reads as one unit without parentheses. -/
def atomic : Expr → Bool
  | Expr.concat _ _ _ => false
  | Expr.binop _ _ _ => false
  | Expr.new _ _ => false
  | _ => true

/-- A concatenation. -/
def isConcat : Expr → Bool
  | Expr.concat _ _ _ => true
  | _ => false

mutual
/-- An expression whose text PHP reads back as this very expression: names and strings are
plain, the operands of an arithmetic operator are units, and concatenations nest to the
left. -/
def wfExpr : Expr → Bool
  | Expr.strLit s => isPlainText s
  | Expr.intLit _ => true
  | Expr.var x => isName x
  | Expr.const c => isName c
  | Expr.concat _ a b => (atomic a || isConcat a) && atomic b && wfExpr a && wfExpr b
  | Expr.binop _ a b => atomic a && atomic b && wfExpr a && wfExpr b
  | Expr.paren e => wfExpr e
  | Expr.call f as => isName f && wfArgs as
  | Expr.new cls as => isName cls && wfArgs as
  | Expr.staticCall cls m as => isName cls && isName m && wfArgs as
  | Expr.methodCall r m as => isName r && isName m && wfArgs as
  | Expr.postInc x => isName x
/-- Well-formed argument lists. -/
def wfArgs : Args → Bool
  | Args.nil => true
  | Args.cons e rest => wfExpr e && wfArgs rest
end

/-- Well-formed statements without a body. -/
def wfSimple : Simple → Bool
  | Simple.require p => wfExpr p
  | Simple.use n => isName n
  | Simple.assign x e => isName x && wfExpr e
  | Simple.expr e => wfExpr e
  | Simple.echo e => wfExpr e
  | Simple.empty => true

/-- Well-formed statements. -/
def wfStmt : Stmt → Bool
  | Stmt.simple s => wfSimple s
  | Stmt.forLoop init cond incr space body =>
    wfSimple init && wfExpr cond && wfExpr incr && isBlank space
      && body.all (fun p => wfSimple p.1 && isBlank p.2)

/-- A script whose text PHP reads back as this very script. -/
def wellFormed (p : Program) : Bool :=
  p.all (fun q => wfStmt q.1 && isBlank q.2)

/-- Arguments from a list. -/
def args : List Expr → Args
  | [] => Args.nil
  | e :: rest => Args.cons e (args rest)

/-- The batch script as `getPhpCodeWithAbsolutePath` returns it, statement by statement. -/
def batchProgram : Program :=
  [ (Stmt.simple (Simple.require
      (Expr.strLit "/var/www/html/inventory-ai/vendor/autoload.php".toList)), []),
    (Stmt.simple Simple.empty, " ".toList),
    (Stmt.simple (Simple.use "App\\Config\\MongoDBManager".toList), " ".toList),
    (Stmt.simple (Simple.use "App\\Model\\User".toList), " ".toList),
    (Stmt.simple (Simple.use "App\\Repository\\UserRepository".toList), " ".toList),
    (Stmt.simple (Simple.expr
      (Expr.staticCall "MongoDBManager".toList "initialize".toList (args []))), " ".toList),
    (Stmt.simple (Simple.assign "repo".toList
      (Expr.new "UserRepository".toList (args []))), " ".toList),
    (Stmt.simple (Simple.assign "start".toList
      (Expr.call "microtime".toList (args [Expr.const "true".toList]))), " ".toList),
    (Stmt.forLoop (Simple.assign "i".toList (Expr.intLit 0))
      (Expr.binop BinOp.lt (Expr.var "i".toList) (Expr.intLit 50))
      (Expr.postInc "i".toList)
      "     ".toList
      [ (Simple.assign "user".toList
          (Expr.new "User".toList (args
            [ Expr.concat true (Expr.strLit "loaduser".toList) (Expr.var "i".toList),
              Expr.concat true
                (Expr.concat true (Expr.strLit "load".toList) (Expr.var "i".toList))
                (Expr.strLit "@example.com".toList),
              Expr.call "password_hash".toList
                (args [Expr.strLit "test123".toList, Expr.const "PASSWORD_BCRYPT".toList]),
              Expr.strLit "staff".toList ])), "     ".toList),
        (Simple.expr (Expr.methodCall "repo".toList "saveUser".toList
          (args [Expr.var "user".toList])), "     ".toList),
        (Simple.expr (Expr.methodCall "repo".toList "deleteUser".toList
          (args [Expr.var "user".toList])), " ".toList) ], " ".toList),
    (Stmt.simple (Simple.assign "time".toList
      (Expr.binop BinOp.mul
        (Expr.paren (Expr.binop BinOp.sub
          (Expr.call "microtime".toList (args [Expr.const "true".toList]))
          (Expr.var "start".toList)))
        (Expr.intLit 1000))), " ".toList),
    (Stmt.simple (Simple.echo
      (Expr.concat false
        (Expr.concat false
          (Expr.concat false (Expr.strLit "Completed 50 iterations: ".toList)
            (Expr.call "round".toList (args [Expr.var "time".toList, Expr.intLit 2])))
          (Expr.strLit "ms".toList))
        (Expr.const "PHP_EOL".toList))), []),
    (Stmt.simple (Simple.echo
      (Expr.concat false
        (Expr.concat false
          (Expr.concat false (Expr.strLit "Average: ".toList)
            (Expr.call "round".toList
              (args [Expr.binop BinOp.div (Expr.var "time".toList) (Expr.intLit 50),
                Expr.intLit 2])))
          (Expr.strLit "ms per operation".toList))
        (Expr.const "PHP_EOL".toList))), []) ]

end Php

/-! ## `tester-comprehensive/performance_tester.cpp` -/

namespace PerfTester

/-- The harness process of `performance_tester.cpp`: actions so far, clock readings made. -/
structure State where
  trace : List Action
  reads : Nat

/-- The string `cmd` built in the body of the loop of `runLoadTest` at loop index `i`.  It
is a literal: the C++ variable `i` does not occur in the expression. -/
def cmd (_i : Nat) : Str :=
  ("cd /var/www/html/inventory-ai && php -r \"require 'vendor/autoload.php'; " ++
   "use App\\Config\\MongoDBManager; use App\\Repository\\UserRepository; " ++
   "use App\\Utility\\Logger; $logger = new Logger(); MongoDBManager::initialize($logger); " ++
   "$repo = new UserRepository(); for ($j = 0; $j < 10; $j++) \x7b " ++
   "$user = new User('loaduser' . $i . '_' . $j, 'load' . $i . '.' . $j . '@example.com', " ++
   "'hash', 'staff'); $repo->saveUser($user); \x7d \" > /dev/null 2>&1 &").toList

/-- The clean-up command of `runLoadTest`. -/
def cleanupCmd : Str :=
  ("cd /var/www/html/inventory-ai && php -r \"require 'vendor/autoload.php'; " ++
   "use App\\Config\\MongoDBManager; use App\\Repository\\UserRepository; " ++
   "MongoDBManager::initialize(); $repo = new UserRepository(); " ++
   "$users = $repo->find(['username' => ['$regex' => 'loaduser']]); " ++
   "foreach ($users as $user) \x7b $repo->delete($user['_id']); \x7d " ++
   "echo 'Cleanup completed\\n';\"").toList

/-- The call `system(command)`: the command line is handed to a new `sh -c`. -/
def system (command : Str) (s : State) : State :=
  ⟨s.trace ++ [Action.system command], s.reads⟩

/-- Writing a line to `std::cout`. -/
def print (line : Str) (s : State) : State :=
  ⟨s.trace ++ [Action.print line], s.reads⟩

/-- Writing `std::cout << label << duration.count() << "ms" << std::endl`. -/
def printDuration (label : Str) (ms : Int) (s : State) : State :=
  ⟨s.trace ++ [Action.printDuration label ms], s.reads⟩

/-- Reading `std::chrono::high_resolution_clock::now()`. -/
def now (clock : Nat → Int) (s : State) : State × Int :=
  (⟨s.trace ++ [Action.now], s.reads + 1⟩, clock s.reads)

/-- `PerformanceTester::runLoadTest`; `clock k` is the k-th clock reading in milliseconds. -/
def runLoadTest (clock : Nat → Int) (s : State) : State :=
  let s := print "Running basic load test...".toList s
  let start := now clock s
  let s := forLoop 3 (fun i s => system (cmd i) s) start.1
  let s := system "wait".toList s
  let stop := now clock s
  let s := printDuration "Load test completed in: ".toList (stop.2 - start.2) stop.1
  system cleanupCmd s

/-- Positions of the action `a` in a trace. -/
def positionsOf (a : Action) (t : List Action) : List Nat :=
  (List.range t.length).filter (fun i => t[i]? = some a)

/-- Commands handed to `system`, in order. -/
def systemCommands (t : List Action) : List Str :=
  t.filterMap (fun a => match a with
    | Action.system c => some c
    | _ => none)

end PerfTester

/-! ## `tests/category_model.h` -/

namespace CategoryModel

end CategoryModel

/-! ## Occurrences of a pattern -/

theorem countOcc_append (pat pre rest : Str) :
    countOcc pat (pre ++ rest) = countPre pat pre rest + countOcc pat rest := by
  induction pre with
  | nil => simp [countPre]
  | cons c cs ih =>
    show (if pat.isPrefixOf (c :: (cs ++ rest)) then 1 else 0) + countOcc pat (cs ++ rest)
      = ((if pat.isPrefixOf ((c :: cs) ++ rest) then 1 else 0) + countPre pat cs rest)
        + countOcc pat rest
    rw [ih, List.cons_append]
    omega

theorem compatB_of_prefix_append {x y z : Str} (h : x <+: y ++ z) : compatB x y = true := by
  have hy : y <+: y ++ z := List.prefix_append y z
  rcases List.prefix_or_prefix_of_prefix h hy with h1 | h1
  · simp [compatB, List.isPrefixOf_iff_prefix.mpr h1]
  · simp [compatB, List.isPrefixOf_iff_prefix.mpr h1]

theorem countPre_eq_zero {pat : Str} (m post : Str) (h : incompatSuffixes pat m = true) :
    countPre pat m post = 0 := by
  induction m with
  | nil => rfl
  | cons c cs ih =>
    simp only [incompatSuffixes, Bool.and_eq_true, Bool.not_eq_true'] at h
    have hno : pat.isPrefixOf ((c :: cs) ++ post) = false := by
      cases hp : pat.isPrefixOf ((c :: cs) ++ post) with
      | false => rfl
      | true =>
        have := compatB_of_prefix_append (List.isPrefixOf_iff_prefix.mp hp)
        rw [h.1] at this
        exact absurd this (by decide)
    show (if pat.isPrefixOf ((c :: cs) ++ post) then 1 else 0) + countPre pat cs post = 0
    rw [hno, ih h.2]
    rfl

theorem countPre_eq_one {pat : Str} (c : Char) (cs post : Str) (hp : pat <+: c :: cs)
    (h : incompatSuffixes pat cs = true) : countPre pat (c :: cs) post = 1 := by
  have hyes : pat.isPrefixOf ((c :: cs) ++ post) = true :=
    List.isPrefixOf_iff_prefix.mpr (hp.trans (List.prefix_append _ _))
  show (if pat.isPrefixOf ((c :: cs) ++ post) then 1 else 0) + countPre pat cs post = 1
  rw [hyes, countPre_eq_zero cs post h]
  rfl

theorem incompat_of_suffix {a : Str} (v w : Str) (h : incompatSuffixes a (v ++ w) = true)
    (hw : w ≠ []) : compatB a w = false := by
  induction v with
  | nil =>
    cases w with
    | nil => exact absurd rfl hw
    | cons c cs =>
      simp only [List.nil_append, incompatSuffixes, Bool.and_eq_true, Bool.not_eq_true'] at h
      exact h.1
  | cons c cs ih =>
    simp only [List.cons_append, incompatSuffixes, Bool.and_eq_true] at h
    exact ih h.2

theorem prefix_of_no_straddle {pat a : Str} (v z : Str) (h : incompatSuffixes a pat.tail = true)
    (hv : v ≠ []) (hp : pat <+: v ++ (a ++ z)) : pat <+: v := by
  rcases List.prefix_or_prefix_of_prefix hp (List.prefix_append v (a ++ z)) with h1 | h1
  · exact h1
  · obtain ⟨w, hw⟩ := h1
    by_cases hwe : w = []
    · subst hwe
      simp at hw
      rw [hw]
    · exfalso
      rw [← hw] at hp
      have hwa : w <+: a ++ z := (List.prefix_append_right_inj v).mp hp
      have hc : compatB w a = true := compatB_of_prefix_append hwa
      cases v with
      | nil => exact hv rfl
      | cons c cs =>
        rw [← hw] at h
        simp only [List.cons_append, List.tail_cons] at h
        have := incompat_of_suffix cs w h hwe
        simp only [compatB] at this hc
        rw [Bool.or_comm] at hc
        rw [hc] at this
        exact absurd this (by decide)

theorem countPre_congr {pat a b : Str} (pre z y : Str) (ha : incompatSuffixes a pat.tail = true)
    (hb : incompatSuffixes b pat.tail = true) :
    countPre pat pre (a ++ z) = countPre pat pre (b ++ y) := by
  induction pre with
  | nil => rfl
  | cons c cs ih =>
    have e : pat.isPrefixOf ((c :: cs) ++ (a ++ z)) = pat.isPrefixOf ((c :: cs) ++ (b ++ y)) := by
      rw [Bool.eq_iff_iff, List.isPrefixOf_iff_prefix, List.isPrefixOf_iff_prefix]
      constructor
      · intro h
        exact (prefix_of_no_straddle (c :: cs) z ha (by simp) h).trans (List.prefix_append _ _)
      · intro h
        exact (prefix_of_no_straddle (c :: cs) y hb (by simp) h).trans (List.prefix_append _ _)
    simp only [countPre, e, ih]

theorem find_some_split (pat : Str) : ∀ (s : Str) (p : Nat), find s pat = some p →
    ∃ pre post, s = pre ++ (pat ++ post) ∧ pre.length = p := by
  intro s
  induction s with
  | nil =>
    intro p h
    simp only [find] at h
    split at h
    · rename_i hp
      have : pat = [] := by
        have := List.isPrefixOf_iff_prefix.mp hp
        exact List.prefix_nil.mp this
      refine ⟨[], [], ?_, ?_⟩
      · simp [this]
      · simpa using h
    · exact absurd h (by simp)
  | cons c cs ih =>
    intro p h
    simp only [find] at h
    split at h
    · rename_i hp
      obtain ⟨post, hpost⟩ := List.isPrefixOf_iff_prefix.mp hp
      refine ⟨[], post, ?_, ?_⟩
      · simp [hpost]
      · simpa using h
    · cases hf : find cs pat with
      | none => simp [hf] at h
      | some q =>
        simp [hf] at h
        obtain ⟨pre, post, hs, hl⟩ := ih q hf
        refine ⟨c :: pre, post, ?_, ?_⟩
        · simp [hs]
        · simp [hl, h]

theorem countOcc_of_find_none (pat : Str) : ∀ s : Str, find s pat = none → countOcc pat s = 0 := by
  intro s
  induction s with
  | nil =>
    intro h
    simp only [find] at h
    split at h
    · exact absurd h (by simp)
    · rename_i hp
      simp [countOcc, hp]
  | cons c cs ih =>
    intro h
    simp only [find] at h
    split at h
    · exact absurd h (by simp)
    · rename_i hp
      have hf : find cs pat = none := by
        cases hf : find cs pat with
        | none => rfl
        | some q => simp [hf] at h
      simp [countOcc, hp, ih hf]

/-! ## `getPhpCodeWithAbsolutePath` -/

theorem getPhp_of_split (pre post : Str) (p : Nat) (hl : pre.length = p)
    (h : find (pre ++ (relRequire ++ post)) relRequire = some p) :
    FixedV2.getPhpCodeWithAbsolutePath (pre ++ (relRequire ++ post))
      = pre ++ ((absRequire ++ [';']) ++ post) := by
  subst hl
  simp only [FixedV2.getPhpCodeWithAbsolutePath, h, replace]
  have h1 : (pre ++ (relRequire ++ post)).take pre.length = pre := by simp
  have h2 : (pre ++ (relRequire ++ post)).drop (pre.length + 29) = ';' :: post := by
    rw [List.drop_append]
    have hr : relRequire = "require 'vendor/autoload.php'".toList ++ [';'] := by decide
    have hlen : ("require 'vendor/autoload.php'".toList).length = 29 := by decide
    rw [hr, List.append_assoc, ← hlen, List.drop_left]
    rfl
  rw [h1, h2]
  simp

theorem referenceRewrite_of_split (pre post : Str) (p : Nat) (hl : pre.length = p)
    (h : find (pre ++ (relRequire ++ post)) relRequire = some p) :
    FixedV2.referenceRewrite (pre ++ (relRequire ++ post)) = pre ++ (absRequire ++ post) := by
  subst hl
  simp only [FixedV2.referenceRewrite, h]
  have h1 : (pre ++ (relRequire ++ post)).take pre.length = pre := by simp
  have h2 : (pre ++ (relRequire ++ post)).drop (pre.length + 30) = post := by
    rw [List.drop_append]
    have hlen : relRequire.length = 30 := by decide
    rw [← hlen, List.drop_left]
  rw [h1, h2]
  simp

theorem countOcc_getPhp (s : Str) (p : Nat) (h : find s relRequire = some p) :
    countOcc relRequire (FixedV2.getPhpCodeWithAbsolutePath s) + 1 = countOcc relRequire s ∧
    countOcc absRequire (FixedV2.getPhpCodeWithAbsolutePath s) = countOcc absRequire s + 1 := by
  obtain ⟨pre, post, hs, hl⟩ := find_some_split relRequire s p h
  subst hs
  rw [getPhp_of_split pre post p hl h]
  simp only [countOcc_append]
  have r1 : countPre relRequire relRequire post = 1 :=
    countPre_eq_one 'r' relRequire.tail post (by decide) (by decide)
  have r2 : countPre relRequire (absRequire ++ [';']) post = 0 :=
    countPre_eq_zero _ post (by decide)
  have r3 : countPre relRequire pre (relRequire ++ post)
      = countPre relRequire pre (absRequire ++ ([';'] ++ post)) :=
    countPre_congr pre post ([';'] ++ post) (by decide) (by decide)
  have a1 : countPre absRequire relRequire post = 0 :=
    countPre_eq_zero _ post (by decide)
  have a2 : countPre absRequire (absRequire ++ [';']) post = 1 :=
    countPre_eq_one 'r' (absRequire ++ [';']).tail post (by decide) (by decide)
  have a3 : countPre absRequire pre (relRequire ++ post)
      = countPre absRequire pre (absRequire ++ ([';'] ++ post)) :=
    countPre_congr pre post ([';'] ++ post) (by decide) (by decide)
  simp only [List.append_assoc] at *
  rw [r1, r2, a1, a2, r3, a3]
  constructor <;> omega

/-- C1 (as amended): for every script text that contains exactly one occurrence of the
relative bootstrap statement and no occurrence of the absolute one, the text returned by
`getPhpCodeWithAbsolutePath` contains no occurrence of the relative statement and exactly
one occurrence of the absolute statement. -/
theorem getPhpCodeWithAbsolutePath_single_reference (s : Str)
    (hrel : countOcc relRequire s = 1) (habs : countOcc absRequire s = 0) :
    countOcc relRequire (FixedV2.getPhpCodeWithAbsolutePath s) = 0 ∧
    countOcc absRequire (FixedV2.getPhpCodeWithAbsolutePath s) = 1 := by
  cases hf : find s relRequire with
  | none =>
    have := countOcc_of_find_none relRequire s hf
    omega
  | some p =>
    have := countOcc_getPhp s p hf
    omega

set_option maxRecDepth 100000 in
/-- The four scripts of the catalogue satisfy the hypotheses of
`getPhpCodeWithAbsolutePath_single_reference`, hence its conclusion. -/
theorem getPhpCodeWithAbsolutePath_single_reference_witness :
    ((countOcc relRequire FixedV2.connectivityScript = 1 ∧
        countOcc absRequire FixedV2.connectivityScript = 0) ∧
      countOcc relRequire (FixedV2.getPhpCodeWithAbsolutePath FixedV2.connectivityScript) = 0 ∧
      countOcc absRequire (FixedV2.getPhpCodeWithAbsolutePath FixedV2.connectivityScript) = 1) ∧
    (countOcc relRequire (FixedV2.getPhpCodeWithAbsolutePath FixedV2.singleRoundTripScript) = 0 ∧
      countOcc absRequire
        (FixedV2.getPhpCodeWithAbsolutePath FixedV2.singleRoundTripScript) = 1) ∧
    (countOcc relRequire (FixedV2.getPhpCodeWithAbsolutePath FixedV2.batchRoundTripScript) = 0 ∧
      countOcc absRequire
        (FixedV2.getPhpCodeWithAbsolutePath FixedV2.batchRoundTripScript) = 1) ∧
    (countOcc relRequire (FixedV2.getPhpCodeWithAbsolutePath FixedV2.rawStoreLoopScript) = 0 ∧
      countOcc absRequire (FixedV2.getPhpCodeWithAbsolutePath FixedV2.rawStoreLoopScript) = 1) :=
  ⟨⟨⟨by decide, by decide⟩,
      getPhpCodeWithAbsolutePath_single_reference FixedV2.connectivityScript
        (by decide) (by decide)⟩,
    getPhpCodeWithAbsolutePath_single_reference FixedV2.singleRoundTripScript
      (by decide) (by decide),
    getPhpCodeWithAbsolutePath_single_reference FixedV2.batchRoundTripScript
      (by decide) (by decide),
    getPhpCodeWithAbsolutePath_single_reference FixedV2.rawStoreLoopScript
      (by decide) (by decide)⟩

/-- C1 (as stated) fails: a script with two relative bootstrap statements keeps one of them,
and a script that already holds the absolute statement ends with two of them. -/
theorem getPhpCodeWithAbsolutePath_first_occurrence_only :
    (1 ≤ countOcc relRequire
        "require 'vendor/autoload.php'; require 'vendor/autoload.php';".toList ∧
      countOcc relRequire (FixedV2.getPhpCodeWithAbsolutePath
        "require 'vendor/autoload.php'; require 'vendor/autoload.php';".toList) = 1) ∧
    (1 ≤ countOcc relRequire (absRequire ++ relRequire) ∧
      countOcc absRequire
        (FixedV2.getPhpCodeWithAbsolutePath (absRequire ++ relRequire)) = 2) := by
  decide

/-- C8: on every script that contains the relative bootstrap statement, at first position
`p`, `getPhpCodeWithAbsolutePath` replaces 29 characters, not 30: the result is
`s[0..p) ++ absolute ++ s[p+29..)`, it is 28 characters longer than `s`, and it differs
from the reference rewriting of the claim. -/
theorem getPhpCodeWithAbsolutePath_replaces_29 (s : Str) (p : Nat)
    (h : find s relRequire = some p) :
    FixedV2.getPhpCodeWithAbsolutePath s = s.take p ++ absRequire ++ s.drop (p + 29) ∧
    (FixedV2.getPhpCodeWithAbsolutePath s).length = s.length + 28 ∧
    (FixedV2.referenceRewrite s).length = s.length + 27 ∧
    FixedV2.getPhpCodeWithAbsolutePath s ≠ FixedV2.referenceRewrite s := by
  have e1 : FixedV2.getPhpCodeWithAbsolutePath s = s.take p ++ absRequire ++ s.drop (p + 29) := by
    simp only [FixedV2.getPhpCodeWithAbsolutePath, h, replace]
  obtain ⟨pre, post, hs, hl⟩ := find_some_split relRequire s p h
  subst hs
  have e2 := getPhp_of_split pre post p hl h
  have e3 := referenceRewrite_of_split pre post p hl h
  have la : absRequire.length = 57 := by decide
  have lr : relRequire.length = 30 := by decide
  have l2 : (FixedV2.getPhpCodeWithAbsolutePath (pre ++ (relRequire ++ post))).length
      = (pre ++ (relRequire ++ post)).length + 28 := by
    rw [e2]
    simp only [List.length_append, List.length_singleton, la, lr]
    omega
  have l3 : (FixedV2.referenceRewrite (pre ++ (relRequire ++ post))).length
      = (pre ++ (relRequire ++ post)).length + 27 := by
    rw [e3]
    simp only [List.length_append, la, lr]
    omega
  refine ⟨e1, l2, l3, ?_⟩
  intro hne
  rw [hne, l3] at l2
  omega

set_option maxRecDepth 100000 in
/-- The Connectivity script, as `runPhpPerformanceTest` passes it, comes back with two
semicolons after the absolute statement, where the reference rewriting has one. -/
theorem getPhpCodeWithAbsolutePath_replaces_29_witness :
    find FixedV2.connectivityScript relRequire = some 0 ∧
    FixedV2.getPhpCodeWithAbsolutePath FixedV2.connectivityScript
      = ("require '/var/www/html/inventory-ai/vendor/autoload.php';; " ++
         "use App\\Config\\MongoDBManager; " ++
         "MongoDBManager::initialize(); " ++
         "echo MongoDBManager::ping() ? '\xe2\x9c\x85 Connected' : '\xe2\x9d\x8c Failed'; " ++
         "echo PHP_EOL;").toList ∧
    FixedV2.referenceRewrite FixedV2.connectivityScript
      = ("require '/var/www/html/inventory-ai/vendor/autoload.php'; " ++
         "use App\\Config\\MongoDBManager; " ++
         "MongoDBManager::initialize(); " ++
         "echo MongoDBManager::ping() ? '\xe2\x9c\x85 Connected' : '\xe2\x9d\x8c Failed'; " ++
         "echo PHP_EOL;").toList ∧
    (FixedV2.getPhpCodeWithAbsolutePath FixedV2.connectivityScript).length = 167 + 28 ∧
    FixedV2.getPhpCodeWithAbsolutePath FixedV2.connectivityScript
      ≠ FixedV2.referenceRewrite FixedV2.connectivityScript :=
  ⟨by decide, by decide, by decide, by decide,
    (getPhpCodeWithAbsolutePath_replaces_29 FixedV2.connectivityScript 0 (by decide)).2.2.2⟩

/-! ## `runPhpCode` and `main` of `performance_tester_fixed_v2.cpp` -/

theorem c_str_of_no_nul (code : Str) (h : Char.ofNat 0 ∉ code) : c_str code = code := by
  unfold c_str
  rw [List.takeWhile_eq_self_iff]
  intro c hc
  have : c ≠ Char.ofNat 0 := fun e => h (e ▸ hc)
  simpa using this

/-- C5 (as amended): for every script `code` without a NUL byte and every call of `runPhpCode`
there is one `fork()`.  In the parent (`fork()` returned `pid > 0`) the call waits for that
child and then returns.  In the child (`fork()` returned 0) of the `tester-comprehensive`
version the process changes directory to the application root and then executes `php`
through the search path with the argument vector `php`, `-r`, `code`, never returning to
the caller; the child of the top-level version does the same without changing directory. -/
theorem runPhpCode_parent_and_child (code : Str) (hnul : Char.ofNat 0 ∉ code) (pid : Int)
    (hpid : 0 < pid) (execOk : Bool) :
    FixedV2.runPhpCode code pid execOk = ([Action.fork, Action.waitpid pid], Flow.returned) ∧
    FixedV2.runPhpCode code 0 true
      = ([Action.fork, Action.chdir "/var/www/html/inventory-ai".toList,
          Action.execvp "php".toList ["php".toList, "-r".toList, code]], Flow.execed) ∧
    FixedV2.runPhpCode code 0 false
      = ([Action.fork, Action.chdir "/var/www/html/inventory-ai".toList,
          Action.execvp "php".toList ["php".toList, "-r".toList, code],
          Action.perror "execvp failed".toList, Action.exit 1], Flow.exited 1) ∧
    RootFixedV2.runPhpCode code pid execOk
      = ([Action.fork, Action.waitpid pid], Flow.returned) ∧
    RootFixedV2.runPhpCode code 0 true
      = ([Action.fork, Action.execvp "php".toList ["php".toList, "-r".toList, code]],
          Flow.execed) ∧
    RootFixedV2.runPhpCode code 0 false
      = ([Action.fork, Action.execvp "php".toList ["php".toList, "-r".toList, code],
          Action.perror "execvp failed".toList, Action.exit 1], Flow.exited 1) := by
  have hne : pid ≠ 0 := by omega
  have hc := c_str_of_no_nul code hnul
  refine ⟨?_, ?_, ?_, ?_, ?_, ?_⟩
  · simp only [FixedV2.runPhpCode, if_neg hne, if_pos hpid]
  · simp only [FixedV2.runPhpCode, hc, appRoot, if_true]
  · simp [FixedV2.runPhpCode, hc, appRoot]
  · simp only [RootFixedV2.runPhpCode, if_neg hne, if_pos hpid]
  · simp only [RootFixedV2.runPhpCode, hc, if_true]
  · simp [RootFixedV2.runPhpCode, hc]

/-- The script `echo 1;` in a parent whose `fork()` returned 4711. -/
theorem runPhpCode_parent_and_child_witness :
    FixedV2.runPhpCode "echo 1;".toList 4711 true
      = ([Action.fork, Action.waitpid 4711], Flow.returned) ∧
    FixedV2.runPhpCode "echo 1;".toList 0 true
      = ([Action.fork, Action.chdir "/var/www/html/inventory-ai".toList,
          Action.execvp "php".toList ["php".toList, "-r".toList, "echo 1;".toList]],
          Flow.execed) :=
  ⟨(runPhpCode_parent_and_child "echo 1;".toList (by decide) 4711 (by decide) true).1,
    (runPhpCode_parent_and_child "echo 1;".toList (by decide) 4711 (by decide) true).2.1⟩

/-- C5 (as stated) fails: the child of `runPhpCode` in the top-level
`performance_tester_fixed_v2.cpp` performs no `chdir`, and a script with a NUL byte reaches
`php` cut at that byte. -/
theorem runPhpCode_root_child_no_chdir :
    (RootFixedV2.runPhpCode "echo 1;".toList 0 true).1
      = [Action.fork, Action.execvp "php".toList ["php".toList, "-r".toList, "echo 1;".toList]] ∧
    Action.chdir "/var/www/html/inventory-ai".toList
      ∉ (RootFixedV2.runPhpCode "echo 1;".toList 0 true).1 ∧
    (FixedV2.runPhpCode ['a', Char.ofNat 0, 'b'] 0 true).1
      = [Action.fork, Action.chdir "/var/www/html/inventory-ai".toList,
          Action.execvp "php".toList ["php".toList, "-r".toList, ['a']]] := by
  decide

/-! ## The batch script -/

set_option maxRecDepth 100000 in
theorem batch_render :
    Php.render Php.batchProgram
      = FixedV2.getPhpCodeWithAbsolutePath FixedV2.batchRoundTripScript := by
  decide

set_option maxRecDepth 100000 in
theorem batch_events :
    (Php.run (fun _ => true) 51 Php.batchProgram).events
      = [Php.Event.require
            [Php.Piece.text "/var/www/html/inventory-ai/vendor/autoload.php".toList],
          Php.Event.staticCall "MongoDBManager".toList "initialize".toList [],
          Php.Event.new "UserRepository".toList [] 0]
        ++ (List.range 50).flatMap (fun i =>
          [Php.Event.new "User".toList
              [Php.Value.str [Php.Piece.text ("loaduser".toList ++ Php.intText i)],
                Php.Value.str
                  [Php.Piece.text ("load".toList ++ Php.intText i ++ "@example.com".toList)],
                Php.Value.result "password_hash".toList,
                Php.Value.str [Php.Piece.text "staff".toList]]
              (i + 1),
            Php.Event.methodCall (Php.Value.obj 0 "UserRepository".toList) "saveUser".toList
              [Php.Value.obj (i + 1) "User".toList],
            Php.Event.methodCall (Php.Value.obj 0 "UserRepository".toList) "deleteUser".toList
              [Php.Value.obj (i + 1) "User".toList]]) := by
  decide

set_option maxRecDepth 100000 in
theorem batch_output :
    (Php.run (fun _ => true) 51 Php.batchProgram).output
      = [Php.Piece.text "Completed 50 iterations: ".toList,
          Php.Piece.float (Php.FExpr.round
            (Php.FExpr.mul (Php.FExpr.sub (Php.FExpr.microtime 1) (Php.FExpr.microtime 0))
              (Php.FExpr.ofInt 1000)) 2),
          Php.Piece.text "ms".toList,
          Php.Piece.const "PHP_EOL".toList,
          Php.Piece.text "Average: ".toList,
          Php.Piece.float (Php.FExpr.round
            (Php.FExpr.div
              (Php.FExpr.mul (Php.FExpr.sub (Php.FExpr.microtime 1) (Php.FExpr.microtime 0))
                (Php.FExpr.ofInt 1000))
              (Php.FExpr.ofInt 50)) 2),
          Php.Piece.text "ms per operation".toList,
          Php.Piece.const "PHP_EOL".toList] := by
  decide

theorem loop_succ (returns : Nat → Bool) (cond incr : Php.Expr) (body : List (Php.Simple × Str)) :
    ∀ (fuel : Nat) (st : Php.PhpState),
      Php.loop returns cond incr body fuel st ≠ Php.Res.outOfFuel →
      Php.loop returns cond incr body (fuel + 1) st = Php.loop returns cond incr body fuel st := by
  intro fuel
  induction fuel with
  | zero =>
    intro st h
    exact absurd rfl h
  | succ n ih =>
    intro st h
    rw [Php.loop] at h
    conv_lhs => rw [Php.loop]
    conv_rhs => rw [Php.loop]
    cases hc : Php.evalExpr returns cond st with
    | ok c st1 =>
      rw [hc] at h
      simp only [Php.Res.bind] at h ⊢
      split
      · rename_i hb
        simp only [] at h
        cases hbody : Php.execBody returns body st1 with
        | ok u st2 =>
          rw [hbody] at h
          simp only [Php.Res.bind] at h ⊢
          cases hi : Php.evalExpr returns incr st2 with
          | ok v st3 =>
            rw [hi] at h
            simp only [Php.Res.bind] at h ⊢
            exact ih st3 h
          | fatal st3 => rfl
          | stuck => rfl
          | outOfFuel => rfl
        | fatal st2 => rfl
        | stuck => rfl
        | outOfFuel => rfl
      · rfl
      · rfl
    | fatal st1 => rfl
    | stuck => rfl
    | outOfFuel => rfl

theorem execStmt_succ (returns : Nat → Bool) (fuel : Nat) (s : Php.Stmt) (st : Php.PhpState)
    (h : Php.execStmt returns fuel s st ≠ Php.Res.outOfFuel) :
    Php.execStmt returns (fuel + 1) s st = Php.execStmt returns fuel s st := by
  cases s with
  | simple s => rfl
  | forLoop init cond incr space body =>
    simp only [Php.execStmt] at h ⊢
    cases hi : Php.execSimple returns init st with
    | ok u st1 =>
      rw [hi] at h
      simp only [Php.Res.bind] at h ⊢
      exact loop_succ returns cond incr body fuel st1 h
    | fatal st1 => rfl
    | stuck => rfl
    | outOfFuel => rfl

theorem exec_succ (returns : Nat → Bool) (fuel : Nat) :
    ∀ (p : Php.Program) (st : Php.PhpState),
      Php.exec returns fuel p st ≠ Php.Res.outOfFuel →
      Php.exec returns (fuel + 1) p st = Php.exec returns fuel p st := by
  intro p
  induction p with
  | nil =>
    intro st _
    rfl
  | cons q rest ih =>
    intro st h
    obtain ⟨s, w⟩ := q
    simp only [Php.exec] at h ⊢
    cases hs : Php.execStmt returns fuel s st with
    | ok u st1 =>
      rw [hs] at h
      have e := execStmt_succ returns fuel s st (by rw [hs]; simp)
      rw [e, hs]
      simp only [Php.Res.bind] at h ⊢
      exact ih st1 h
    | fatal st1 =>
      have e := execStmt_succ returns fuel s st (by rw [hs]; simp)
      rw [e, hs]
      rfl
    | stuck =>
      have e := execStmt_succ returns fuel s st (by rw [hs]; simp)
      rw [e, hs]
      rfl
    | outOfFuel =>
      rw [hs] at h
      exact absurd rfl h

theorem run_add (returns : Nat → Bool) (fuel : Nat) (p : Php.Program)
    (h : Php.run returns fuel p ≠ Php.Res.outOfFuel) (k : Nat) :
    Php.run returns (fuel + k) p = Php.run returns fuel p := by
  induction k with
  | zero => rfl
  | succ k ih =>
    unfold Php.run at h ih ⊢
    rw [← Nat.add_assoc, exec_succ returns (fuel + k) p _ (by rw [ih]; exact h), ih]

set_option maxRecDepth 100000 in
theorem batch_finished : (Php.run (fun _ => true) 51 Php.batchProgram).finished = true := by
  decide

set_option maxRecDepth 100000 in
theorem batch_run_of_fuel (returns : Nat → Bool) (fuel : Nat) (hret : ∀ k, returns k = true)
    (hfuel : 51 ≤ fuel) :
    Php.run returns fuel Php.batchProgram = Php.run (fun _ => true) 51 Php.batchProgram := by
  have hr : returns = fun _ => true := funext hret
  subst hr
  obtain ⟨k, rfl⟩ := Nat.exists_eq_add_of_le hfuel
  apply run_add
  intro h
  have hf := batch_finished
  rw [h] at hf
  exact absurd hf (by decide)

set_option maxRecDepth 100000 in
/-- C6 (as amended): the text handed to `php` is the script `batchProgram`.  When no call
that leaves the script throws, the script runs to its end with any fuel of 51 or more: its
loop runs 50 iterations, each of which creates one `User` named `'loaduser'.$i` and issues
exactly one `saveUser` followed by exactly one `deleteUser` of that same object, so that
50 creates and 50 deletes are issued; it then reports `round($time, 2)` after
`Completed 50 iterations: ` and `round($time / 50, 2)` after `Average: `, for one and the
same measured `$time` and with the 50 of the loop bound. -/
theorem batch_script_round_trip (returns : Nat → Bool) (fuel : Nat)
    (hret : ∀ k, returns k = true) (hfuel : 51 ≤ fuel) :
    Php.render Php.batchProgram
      = FixedV2.getPhpCodeWithAbsolutePath FixedV2.batchRoundTripScript ∧
    Php.wellFormed Php.batchProgram = true ∧
    (Php.run returns fuel Php.batchProgram).finished = true ∧
    (Php.run returns fuel Php.batchProgram).events
      = [Php.Event.require
            [Php.Piece.text "/var/www/html/inventory-ai/vendor/autoload.php".toList],
          Php.Event.staticCall "MongoDBManager".toList "initialize".toList [],
          Php.Event.new "UserRepository".toList [] 0]
        ++ (List.range 50).flatMap (fun i =>
          [Php.Event.new "User".toList
              [Php.Value.str [Php.Piece.text ("loaduser".toList ++ Php.intText i)],
                Php.Value.str
                  [Php.Piece.text ("load".toList ++ Php.intText i ++ "@example.com".toList)],
                Php.Value.result "password_hash".toList,
                Php.Value.str [Php.Piece.text "staff".toList]]
              (i + 1),
            Php.Event.methodCall (Php.Value.obj 0 "UserRepository".toList) "saveUser".toList
              [Php.Value.obj (i + 1) "User".toList],
            Php.Event.methodCall (Php.Value.obj 0 "UserRepository".toList) "deleteUser".toList
              [Php.Value.obj (i + 1) "User".toList]]) ∧
    (Php.run returns fuel Php.batchProgram).events.countP
      (Php.Event.isMethodCall "saveUser".toList) = 50 ∧
    (Php.run returns fuel Php.batchProgram).events.countP
      (Php.Event.isMethodCall "deleteUser".toList) = 50 ∧
    (Php.run returns fuel Php.batchProgram).output
      = [Php.Piece.text "Completed 50 iterations: ".toList,
          Php.Piece.float (Php.FExpr.round
            (Php.FExpr.mul (Php.FExpr.sub (Php.FExpr.microtime 1) (Php.FExpr.microtime 0))
              (Php.FExpr.ofInt 1000)) 2),
          Php.Piece.text "ms".toList,
          Php.Piece.const "PHP_EOL".toList,
          Php.Piece.text "Average: ".toList,
          Php.Piece.float (Php.FExpr.round
            (Php.FExpr.div
              (Php.FExpr.mul (Php.FExpr.sub (Php.FExpr.microtime 1) (Php.FExpr.microtime 0))
                (Php.FExpr.ofInt 1000))
              (Php.FExpr.ofInt 50)) 2),
          Php.Piece.text "ms per operation".toList,
          Php.Piece.const "PHP_EOL".toList] := by
  rw [batch_run_of_fuel returns fuel hret hfuel]
  exact ⟨batch_render, by decide, batch_finished, batch_events, by decide, by decide,
    batch_output⟩

set_option maxRecDepth 100000 in
/-- A run in which every call returns, with fuel 51. -/
theorem batch_script_round_trip_witness :
    (Php.run (fun _ => true) 51 Php.batchProgram).finished = true ∧
    (Php.run (fun _ => true) 51 Php.batchProgram).events.countP
      (Php.Event.isMethodCall "saveUser".toList) = 50 ∧
    (Php.run (fun _ => true) 51 Php.batchProgram).events.countP
      (Php.Event.isMethodCall "deleteUser".toList) = 50 :=
  ⟨(batch_script_round_trip (fun _ => true) 51 (fun _ => rfl) (by decide)).2.2.1,
    (batch_script_round_trip (fun _ => true) 51 (fun _ => rfl) (by decide)).2.2.2.2.1,
    (batch_script_round_trip (fun _ => true) 51 (fun _ => rfl) (by decide)).2.2.2.2.2.1⟩

set_option maxRecDepth 100000 in
/-- C6 (as stated) fails.  When the two calls of `microtime(true)` return 1700000000 and
1700000000.0013 seconds, `$time` is 1.3: the script reports the total 1.3 and the average
0.03, which is not 1.3 / 50 = 0.026.  And when the first `saveUser` throws, the script
ends there: one create has been issued and no delete. -/
theorem batch_script_reported_average_is_rounded :
    ((Php.run (fun _ => true) 51 Php.batchProgram).output.filterMap Php.Piece.toFloat?).map
        (Php.FExpr.value (fun k => 1700000000 + 13 / 10000 * (k : ℚ)))
      = [13 / 10, 3 / 100] ∧
    (3 / 100 : ℚ) ≠ 13 / 10 / 50 ∧
    (Php.run (fun k => k != 4) 51 Php.batchProgram).finished = false ∧
    (Php.run (fun k => k != 4) 51 Php.batchProgram).events.countP
      (Php.Event.isMethodCall "saveUser".toList) = 1 ∧
    (Php.run (fun k => k != 4) 51 Php.batchProgram).events.countP
      (Php.Event.isMethodCall "deleteUser".toList) = 0 := by
  refine ⟨?_, by norm_num, by decide, by decide, by decide⟩
  rw [batch_output]
  simp only [List.filterMap, Php.Piece.toFloat?, List.map, Php.FExpr.value, Php.phpRound]
  norm_num

/-! ## `runLoadTest` of `performance_tester.cpp` -/

theorem runLoadTest_actions (clock : Nat → Int) :
    (PerfTester.runLoadTest clock ⟨[], 0⟩).trace
      = [Action.print "Running basic load test...".toList,
         Action.now,
         Action.system (PerfTester.cmd 0),
         Action.system (PerfTester.cmd 1),
         Action.system (PerfTester.cmd 2),
         Action.system "wait".toList,
         Action.now,
         Action.printDuration "Load test completed in: ".toList (clock 1 - clock 0),
         Action.system PerfTester.cleanupCmd] := by
  rfl

/-- C4 (as amended): in the sequence of actions of `runLoadTest` the start timestamp is read
before the first worker command is issued, the end timestamp is read after the `wait`
command has returned and before the clean-up command is issued, and the duration printed
is the difference of these two readings; the clean-up command is issued last, after the
duration has been printed. -/
theorem runLoadTest_trace (clock : Nat → Int) :
    (PerfTester.runLoadTest clock ⟨[], 0⟩).trace
      = [Action.print "Running basic load test...".toList,
         Action.now,
         Action.system (PerfTester.cmd 0),
         Action.system (PerfTester.cmd 1),
         Action.system (PerfTester.cmd 2),
         Action.system "wait".toList,
         Action.now,
         Action.printDuration "Load test completed in: ".toList (clock 1 - clock 0),
         Action.system PerfTester.cleanupCmd] := by
  rfl

set_option maxRecDepth 100000 in
/-- C4 (as stated) fails: with a clock that advances by one second per reading, the two
clock readings of `runLoadTest` are at positions 1 and 6 of its trace and the clean-up
command at position 8, so that no clock reading follows the clean-up command. -/
theorem runLoadTest_end_read_before_cleanup :
    PerfTester.positionsOf Action.now
      (PerfTester.runLoadTest (fun k => 1000 * (k : Int)) ⟨[], 0⟩).trace = [1, 6] ∧
    PerfTester.positionsOf (Action.system PerfTester.cleanupCmd)
      (PerfTester.runLoadTest (fun k => 1000 * (k : Int)) ⟨[], 0⟩).trace = [8] ∧
    ¬ ∃ i j : Nat, i < j ∧
      (PerfTester.runLoadTest (fun k => 1000 * (k : Int)) ⟨[], 0⟩).trace[i]?
        = some (Action.system PerfTester.cleanupCmd) ∧
      (PerfTester.runLoadTest (fun k => 1000 * (k : Int)) ⟨[], 0⟩).trace[j]?
        = some Action.now := by
  refine ⟨by decide, by decide, ?_⟩
  rintro ⟨i, j, hij, hi, hj⟩
  rw [runLoadTest_actions] at hi hj
  have hj9 : j < 9 := by
    by_contra hge
    have : ([Action.print "Running basic load test...".toList,
         Action.now,
         Action.system (PerfTester.cmd 0),
         Action.system (PerfTester.cmd 1),
         Action.system (PerfTester.cmd 2),
         Action.system "wait".toList,
         Action.now,
         Action.printDuration "Load test completed in: ".toList
           ((fun k : Nat => 1000 * (k : Int)) 1 - (fun k : Nat => 1000 * (k : Int)) 0),
         Action.system PerfTester.cleanupCmd])[j]? = none :=
      List.getElem?_eq_none (by simp; omega)
    rw [this] at hj
    exact absurd hj (by simp)
  have key : ∀ i < 9, ∀ j < 9, i < j →
      ([Action.print "Running basic load test...".toList,
         Action.now,
         Action.system (PerfTester.cmd 0),
         Action.system (PerfTester.cmd 1),
         Action.system (PerfTester.cmd 2),
         Action.system "wait".toList,
         Action.now,
         Action.printDuration "Load test completed in: ".toList
           ((fun k : Nat => 1000 * (k : Int)) 1 - (fun k : Nat => 1000 * (k : Int)) 0),
         Action.system PerfTester.cleanupCmd])[i]?
        ≠ some (Action.system PerfTester.cleanupCmd) := by
    decide
  exact key i (by omega) j hj9 hij hi

set_option maxRecDepth 100000 in
/-- C2: the command text built for a worker does not depend on the worker index: the three
commands issued by the loop of `runLoadTest` are one and the same text, in which `$i` is a
variable that the text never assigns; no digit of a worker index occurs after
`loaduser`. -/
theorem runLoadTest_worker_commands_identical :
    (∀ w w' : Nat, PerfTester.cmd w = PerfTester.cmd w') ∧
    (PerfTester.runLoadTest (fun k => 1000 * (k : Int)) ⟨[], 0⟩).trace[2]?
      = some (Action.system (PerfTester.cmd 0)) ∧
    (PerfTester.runLoadTest (fun k => 1000 * (k : Int)) ⟨[], 0⟩).trace[3]?
      = some (Action.system (PerfTester.cmd 0)) ∧
    (PerfTester.runLoadTest (fun k => 1000 * (k : Int)) ⟨[], 0⟩).trace[4]?
      = some (Action.system (PerfTester.cmd 0)) ∧
    (∀ w : Nat, countOcc "new User('loaduser' . $i . '_' . $j,".toList (PerfTester.cmd w) = 1 ∧
      countOcc "$i =".toList (PerfTester.cmd w) = 0 ∧
      countOcc "loaduser0".toList (PerfTester.cmd w) = 0 ∧
      countOcc "loaduser1".toList (PerfTester.cmd w) = 0 ∧
      countOcc "loaduser2".toList (PerfTester.cmd w) = 0) := by
  refine ⟨fun _ _ => rfl, by decide, by decide, by decide, ?_⟩
  intro w
  have e : PerfTester.cmd w = PerfTester.cmd 0 := rfl
  rw [e]
  decide

set_option maxRecDepth 100000 in
/-- C7: `runLoadTest` hands five command lines to `system`, each to a shell of its own: the
three worker commands, every one ending in `&` so that its shell returns without waiting
for the worker, then the command line `wait` alone, then the clean-up command, once. -/
theorem runLoadTest_wait_in_separate_shell :
    PerfTester.systemCommands (PerfTester.runLoadTest (fun k => 1000 * (k : Int)) ⟨[], 0⟩).trace
      = [PerfTester.cmd 0, PerfTester.cmd 1, PerfTester.cmd 2, "wait".toList,
          PerfTester.cleanupCmd] ∧
    (PerfTester.cmd 0).getLast? = some '&' ∧
    (PerfTester.cmd 1).getLast? = some '&' ∧
    (PerfTester.cmd 2).getLast? = some '&' ∧
    countOcc "wait".toList (PerfTester.cmd 0) = 0 ∧
    (PerfTester.positionsOf (Action.system PerfTester.cleanupCmd)
      (PerfTester.runLoadTest (fun k => 1000 * (k : Int)) ⟨[], 0⟩).trace).length = 1 := by
  decide

/-! ## The class `Category` -/

end InventoryAI
